import Mathlib

/-!
Shallow embedding of the aidoctool configuration subsystem
(`src/aidoctool/config_loader.py`, `src/aidoctool/config_manager.py`,
`src/aidoctool/config.py`) and verification of its specification.

Modelling conventions:
* A Python dict with string keys is an insertion-ordered association list
  with unique keys (`List (String × _)`); assigning a fresh key appends,
  `del` filters, `next(iter(d))` is the head key.
* Python `None`-able strings are `Option String`; a Python value that may
  be a missing dict key is wrapped in a further `Option` where the code
  distinguishes absence (the top-level `profiles` / `default_profile` keys).
* `os.environ` (after any `load_dotenv`) is a function `String → Option String`
  passed explicitly.
* YAML serialization of a document followed by parsing is modelled as the
  identity on the document shape (`yaml.safe_dump`/`yaml.safe_load`
  round-trip dicts of strings and nulls exactly); an empty or null file
  parses to `none`.
* A raised Python exception is an `Err` value returned next to the state
  the object had when the exception propagated.
-/

/-- A profile: the value dict stored under one profile name.
`provider`, `model`, `api_key` may be `None` (or the key may be missing,
which the code treats identically via `.get`). `params` is an open string
mapping; only its keys/values as data matter here. -/
structure Profile where
  provider : Option String
  model : Option String
  api_key : Option String
  params : List (String × String)
deriving Repr, DecidableEq

/-- The in-memory configuration document: both top-level keys present
(the loaders guarantee this via `setdefault`). -/
structure ConfigData where
  default_profile : Option String
  profiles : List (String × Profile)
deriving Repr, DecidableEq

/-- A parsed YAML document as it comes out of `yaml.safe_load`, before the
`setdefault` calls: either top-level key may be absent (outer `none`). -/
structure RawDoc where
  default_profile : Option (Option String)
  profiles : Option (List (String × Profile))
deriving Repr, DecidableEq

/-- The backing file: absent, or present with contents that parse to
`none` (empty/null YAML) or to a `RawDoc`. -/
inductive FileState where
  | absent
  | present (content : Option RawDoc)
deriving Repr, DecidableEq

/-- Python `s.startswith(pre)`. -/
def pyStartsWith (s pre : String) : Bool :=
  pre.data.isPrefixOf s.data

/-- Python `s.strip(chars)`: removes every leading and trailing character
that belongs to `chars`. -/
def pyStrip (chars : List Char) (s : String) : String :=
  ⟨((s.data.dropWhile (fun c => chars.contains c)).reverse.dropWhile
      (fun c => chars.contains c)).reverse⟩

/-- The character set of the Python literal passed to `strip` in
`YamlConfigLoader.load_config`: dollar, open brace, close brace. -/
def stripSet : List Char := ['$', '\x7b', '\x7d']

/-- The env-var interpolation applied to one profile inside
`YamlConfigLoader.load_config`: if `api_key` is a string starting with
dollar-open-brace, it is replaced by the environment value of the name
obtained by stripping leading/trailing dollar/brace characters (empty
string when unset); otherwise the profile is untouched. -/
def interpolateProfile (env : String → Option String) (p : Profile) : Profile :=
  match p.api_key with
  | some k =>
    if pyStartsWith k "$\x7b" then
      { p with api_key := some ((env (pyStrip stripSet k)).getD "") }
    else p
  | none => p

/-- Embeds `YamlConfigLoader.load_config`: fresh default document when the file is
absent; otherwise parse (`none` contents become the empty dict), fill
absent top-level keys, then interpolate every profile's `api_key`. -/
def YamlConfigLoader.load_config (env : String → Option String) :
    FileState → ConfigData
  | .absent => ⟨none, []⟩
  | .present content =>
    let data := content.getD ⟨none, none⟩
    let profiles := data.profiles.getD []
    let default_profile := data.default_profile.getD none
    ⟨default_profile, profiles.map (fun kv => (kv.1, interpolateProfile env kv.2))⟩

/-- Embeds `YamlConfigLoader.save_config`: serialize the manager's cached document
(`None` serializes to a file that parses back to null). -/
def YamlConfigLoader.save_config (doc : Option ConfigData) : FileState :=
  match doc with
  | none => .present none
  | some d => .present (some ⟨some d.default_profile, some d.profiles⟩)

/-- Embeds `config.load_config` from `config.py`: same parsing and `setdefault`
behaviour as the YAML loader but with no env-var interpolation. -/
def config.load_config : FileState → ConfigData
  | .absent => ⟨none, []⟩
  | .present content =>
    let data := content.getD ⟨none, none⟩
    ⟨data.default_profile.getD none, data.profiles.getD []⟩

/-- Embeds `EnvConfigLoader.load_config`: synthesizes one profile named
"env-profile" from three fixed environment variables. -/
def EnvConfigLoader.load_config (env : String → Option String) : ConfigData :=
  ⟨some "env-profile",
   [("env-profile",
     ⟨env "AIDOCTOOL_PROVIDER", env "AIDOCTOOL_MODEL", env "AIDOCTOOL_API_KEY", []⟩)]⟩

/-- The polymorphic loader held by a manager: the file-backed one carries
its backing-file state; the env-backed one has no mutable state (its
environment is the global `env` function). -/
inductive Source where
  | yaml (fs : FileState)
  | env
deriving Repr, DecidableEq

def Source.load_config (e : String → Option String) : Source → ConfigData
  | .yaml fs => YamlConfigLoader.load_config e fs
  | .env => EnvConfigLoader.load_config e

/-- Embeds `hasattr(self.loader, 'save_config')`. -/
def Source.hasSave : Source → Bool
  | .yaml _ => true
  | .env => false

/-- Errors raised by the manager layer, under the spec's names:
`ValueError("... already exists")` ↦ `alreadyExists`,
`ValueError("... not found")` ↦ `notFound`,
`NotImplementedError("... read-only")` ↦ `unsupportedOperation`. -/
inductive Err where
  | alreadyExists (name : String)
  | notFound (name : String)
  | unsupportedOperation
deriving Repr, DecidableEq

/-- The keyword arguments accepted by `edit_profile`: each field is either
absent from `kwargs` (`none`) or supplies a new value. -/
structure ProfileUpdate where
  provider : Option String
  model : Option String
  api_key : Option String
  params : Option (List (String × String))
deriving Repr, DecidableEq

/-- Python `profiles[profile_name].update(kwargs)` on one profile dict. -/
def Profile.applyUpdate (p : Profile) (u : ProfileUpdate) : Profile where
  provider := match u.provider with | some v => some v | none => p.provider
  model := match u.model with | some v => some v | none => p.model
  api_key := match u.api_key with | some v => some v | none => p.api_key
  params := match u.params with | some v => v | none => p.params

/-- Embeds `ConfigManager`: the active loader plus the cached document
(`self._config`, `None` when unloaded). -/
structure ConfigManager where
  loader : Source
  config : Option ConfigData
deriving Repr, DecidableEq

namespace ConfigManager

/-- Embeds `ConfigManager.load`: always invokes the loader and caches the result. -/
def load (env : String → Option String) (m : ConfigManager) :
    ConfigData × ConfigManager :=
  let c := m.loader.load_config env
  (c, ⟨m.loader, some c⟩)

/-- Embeds `ConfigManager.get_config`: returns the cache, loading it first if unset. -/
def get_config (env : String → Option String) (m : ConfigManager) :
    ConfigData × ConfigManager :=
  match m.config with
  | none => m.load env
  | some c => (c, m)

/-- Embeds `ConfigManager.save`: delegates to the loader's `save_config` when the
loader has one, otherwise raises. -/
def save (m : ConfigManager) : ConfigManager × Option Err :=
  match m.loader with
  | .yaml _ => (⟨.yaml (YamlConfigLoader.save_config m.config), m.config⟩, none)
  | .env => (m, some .unsupportedOperation)

/-- Python truthiness of the `default_profile` value: `None` and the empty
string are falsy. -/
def pyTruthy : Option String → Bool
  | none => false
  | some s => s ≠ ""

/-- Embeds `ConfigManager.add_profile`. Here `params` is the optional keyword argument
(`params or {}` turns `None` into the empty dict). -/
def add_profile (env : String → Option String)
    (profile_name provider model api_key : String)
    (params : Option (List (String × String))) (m : ConfigManager) :
    ConfigManager × Option Err :=
  let r := m.get_config env
  let config := r.1
  let m1 := r.2
  if (config.profiles.lookup profile_name).isSome then
    (m1, some (.alreadyExists profile_name))
  else
    let profiles := config.profiles ++
      [(profile_name, ⟨some provider, some model, some api_key, params.getD []⟩)]
    let default_profile :=
      if pyTruthy config.default_profile then config.default_profile
      else some profile_name
    ConfigManager.save ⟨m1.loader, some ⟨default_profile, profiles⟩⟩

/-- Embeds `ConfigManager.edit_profile`. -/
def edit_profile (env : String → Option String) (profile_name : String)
    (u : ProfileUpdate) (m : ConfigManager) : ConfigManager × Option Err :=
  let r := m.get_config env
  let config := r.1
  let m1 := r.2
  match config.profiles.lookup profile_name with
  | none => (m1, some (.notFound profile_name))
  | some p =>
    let profiles := config.profiles.map
      (fun kv => if kv.1 == profile_name then (profile_name, p.applyUpdate u) else kv)
    ConfigManager.save ⟨m1.loader, some ⟨config.default_profile, profiles⟩⟩

/-- Embeds `ConfigManager.delete_profile`. -/
def delete_profile (env : String → Option String) (profile_name : String)
    (m : ConfigManager) : ConfigManager × Option Err :=
  let r := m.get_config env
  let config := r.1
  let m1 := r.2
  if (config.profiles.lookup profile_name).isSome then
    let profiles := config.profiles.filter (fun kv => kv.1 != profile_name)
    let default_profile :=
      if config.default_profile = some profile_name then
        profiles.head?.map Prod.fst
      else config.default_profile
    ConfigManager.save ⟨m1.loader, some ⟨default_profile, profiles⟩⟩
  else (m1, some (.notFound profile_name))

/-- Embeds `ConfigManager.set_default`. -/
def set_default (env : String → Option String) (profile_name : String)
    (m : ConfigManager) : ConfigManager × Option Err :=
  let r := m.get_config env
  let config := r.1
  let m1 := r.2
  if (config.profiles.lookup profile_name).isSome then
    ConfigManager.save ⟨m1.loader, some ⟨some profile_name, config.profiles⟩⟩
  else (m1, some (.notFound profile_name))

end ConfigManager

namespace ReadOnlyConfigManager

/-- Embeds `ReadOnlyConfigManager.save`: unconditionally raises, state untouched. -/
def save (m : ConfigManager) : ConfigManager × Option Err :=
  (m, some .unsupportedOperation)

/-- Embeds `ReadOnlyConfigManager.add_profile`: ignores all arguments and raises. -/
def add_profile (_profile_name _provider _model _api_key : String)
    (_params : Option (List (String × String))) (m : ConfigManager) :
    ConfigManager × Option Err :=
  (m, some .unsupportedOperation)

/-- Embeds `ReadOnlyConfigManager.edit_profile`: ignores all arguments and raises. -/
def edit_profile (_profile_name : String) (_u : ProfileUpdate)
    (m : ConfigManager) : ConfigManager × Option Err :=
  (m, some .unsupportedOperation)

/-- Embeds `ReadOnlyConfigManager.delete_profile`: ignores all arguments and raises. -/
def delete_profile (_profile_name : String) (m : ConfigManager) :
    ConfigManager × Option Err :=
  (m, some .unsupportedOperation)

/-- Embeds `ReadOnlyConfigManager.set_default`: ignores all arguments and raises. -/
def set_default (_profile_name : String) (m : ConfigManager) :
    ConfigManager × Option Err :=
  (m, some .unsupportedOperation)

end ReadOnlyConfigManager

/-! ### Helper lemmas about association lists (Python dict model) -/

theorem lookup_append (a : String) (l t : List (String × Profile)) :
    (l ++ t).lookup a = ((l.lookup a).or (t.lookup a)) := by
  induction l with
  | nil => simp [List.lookup]
  | cons kv tl ih =>
    obtain ⟨k, v⟩ := kv
    by_cases h : a = k
    · subst h; simp [List.lookup]
    · simp [List.lookup, beq_false_of_ne h, ih]

theorem lookup_map_val (f : Profile → Profile) (a : String)
    (l : List (String × Profile)) :
    (l.map (fun kv => (kv.1, f kv.2))).lookup a = (l.lookup a).map f := by
  induction l with
  | nil => simp [List.lookup]
  | cons kv tl ih =>
    obtain ⟨k, v⟩ := kv
    by_cases h : a = k
    · subst h; simp [List.lookup]
    · simp [List.lookup, beq_false_of_ne h, ih]

theorem lookup_filter_ne (a b : String) (l : List (String × Profile)) (hab : b ≠ a) :
    (l.filter (fun kv => kv.1 != a)).lookup b = l.lookup b := by
  induction l with
  | nil => rfl
  | cons kv tl ih =>
    obtain ⟨k, v⟩ := kv
    rw [List.filter_cons]
    by_cases hk : k = a
    · have e1 : ((((k, v) : String × Profile).1 != a) : Bool) = false := by
        simp [hk]
      rw [e1, if_neg Bool.false_ne_true, ih, List.lookup_cons,
        show ((b == k) : Bool) = false from beq_false_of_ne (hk ▸ hab)]
    · have e1 : ((((k, v) : String × Profile).1 != a) : Bool) = true := by
        simp [hk]
      rw [e1, if_pos rfl, List.lookup_cons, List.lookup_cons]
      cases hbk : ((b == k) : Bool)
      · exact ih
      · rfl

theorem lookup_filter_self (a : String) (l : List (String × Profile)) :
    (l.filter (fun kv => kv.1 != a)).lookup a = none := by
  induction l with
  | nil => rfl
  | cons kv tl ih =>
    obtain ⟨k, v⟩ := kv
    rw [List.filter_cons]
    by_cases hk : k = a
    · have e1 : ((((k, v) : String × Profile).1 != a) : Bool) = false := by
        simp [hk]
      rw [e1, if_neg Bool.false_ne_true]
      exact ih
    · have e1 : ((((k, v) : String × Profile).1 != a) : Bool) = true := by
        simp [hk]
      rw [e1, if_pos rfl, List.lookup_cons,
        show ((a == k) : Bool) = false from beq_false_of_ne (fun h => hk h.symm)]
      exact ih

theorem lookup_update_self (a : String) (q : Profile) (l : List (String × Profile))
    (h : (l.lookup a).isSome) :
    (l.map (fun kv => if kv.1 == a then (a, q) else kv)).lookup a = some q := by
  induction l with
  | nil => simp [List.lookup] at h
  | cons kv tl ih =>
    obtain ⟨k, v⟩ := kv
    rw [List.map_cons]
    by_cases hk : k = a
    · have e1 : (if ((((k, v) : String × Profile).1 == a) : Bool) then (a, q) else (k, v)) =
          (a, q) := by simp [hk]
      rw [e1, List.lookup_cons, show ((a == a) : Bool) = true from by simp]
    · have e1 : (if ((((k, v) : String × Profile).1 == a) : Bool) then (a, q) else (k, v)) =
          (k, v) := by simp [hk]
      have hak : ((a == k) : Bool) = false := beq_false_of_ne (fun h' => hk h'.symm)
      rw [List.lookup_cons, hak] at h
      rw [e1, List.lookup_cons, hak]
      exact ih h

theorem lookup_update_ne (a b : String) (q : Profile) (l : List (String × Profile))
    (h : b ≠ a) :
    (l.map (fun kv => if kv.1 == a then (a, q) else kv)).lookup b = l.lookup b := by
  induction l with
  | nil => rfl
  | cons kv tl ih =>
    obtain ⟨k, v⟩ := kv
    rw [List.map_cons]
    by_cases hk : k = a
    · have e1 : (if ((((k, v) : String × Profile).1 == a) : Bool) then (a, q) else (k, v)) =
          (a, q) := by simp [hk]
      rw [e1, List.lookup_cons, List.lookup_cons,
        show ((b == a) : Bool) = false from beq_false_of_ne h,
        show ((b == k) : Bool) = false from beq_false_of_ne (hk ▸ h)]
      exact ih
    · have e1 : (if ((((k, v) : String × Profile).1 == a) : Bool) then (a, q) else (k, v)) =
          (k, v) := by simp [hk]
      rw [e1, List.lookup_cons, List.lookup_cons]
      cases hbk : ((b == k) : Bool)
      · exact ih
      · rfl

theorem lookup_head (l : List (String × Profile)) (k : String) (v : Profile)
    (h : l.head? = some (k, v)) : l.lookup k = some v := by
  cases l with
  | nil => simp at h
  | cons kv tl =>
    simp at h
    subst h
    simp [List.lookup]

/-! ### Placeholder shape and `strip` behaviour -/

/-- The spec's exact placeholder shape: a dollar sign, an open brace, the
variable name `v`, and a close brace. -/
def placeholder (v : String) : String := "$\x7b" ++ v ++ "\x7d"

/-- A variable name free of the dollar/brace marker characters (true of
every real environment-variable name). -/
def placeholderFree (v : String) : Prop :=
  ∀ c ∈ v.data, stripSet.contains c = false

/-- Decides whether the characters after the leading dollar-open-brace are
a marker-free body followed by exactly one closing brace. -/
def isPlaceholderBody : List Char → Bool
  | [] => false
  | ['\x7d'] => true
  | c :: rest => !(stripSet.contains c) && isPlaceholderBody rest

/-- Spec-side predicate (from the spec's words, for comparison with the
code): `s` has exactly the literal shape of a marker-delimited
environment-variable reference. -/
def isExactPlaceholder (s : String) : Bool :=
  match s.data with
  | '$' :: '\x7b' :: rest => isPlaceholderBody rest
  | _ => false

/-- Spec-side variable-name extraction: the characters strictly between
the two markers. -/
def varNameOf (k : String) : String := ⟨(k.data.drop 2).dropLast⟩

/-- Spec-side interpolation (from the spec's words): replace an `api_key`
of exactly the placeholder shape by the value of the named variable
(empty string if unset); leave every other value unchanged. -/
def specResolveProfile (env : String → Option String) (p : Profile) : Profile :=
  match p.api_key with
  | some k =>
    if isExactPlaceholder k then
      { p with api_key := some ((env (varNameOf k)).getD "") }
    else p
  | none => p

/-- Spec-side round-trip expectation (from the spec's words): the reloaded
document equals the saved one except that exact placeholders resolve. -/
def specReload (env : String → Option String) (doc : ConfigData) : ConfigData :=
  ⟨doc.default_profile, doc.profiles.map (fun kv => (kv.1, specResolveProfile env kv.2))⟩

theorem dropWhile_all_false {p : Char → Bool} :
    ∀ l : List Char, (∀ c ∈ l, p c = false) → l.dropWhile p = l
  | [], _ => rfl
  | c :: t, h =>
    List.dropWhile_cons_of_neg (by simp [h c (List.mem_cons_self c t)])

theorem placeholder_data (v : String) :
    (placeholder v).data = '$' :: '\x7b' :: (v.data ++ ['\x7d']) := by
  show (("$\x7b" ++ v ++ "\x7d") : String).data = _
  rw [String.data_append, String.data_append]
  rfl

theorem pyStartsWith_placeholder (v : String) :
    pyStartsWith (placeholder v) "$\x7b" = true := by
  show List.isPrefixOf _ _ = true
  rw [placeholder_data, show ("$\x7b" : String).data = ['$', '\x7b'] from rfl]
  simp [List.isPrefixOf]

theorem pyStrip_placeholder (v : String) (hv : placeholderFree v) :
    pyStrip stripSet (placeholder v) = v := by
  apply String.ext
  show ((((placeholder v).data.dropWhile (fun c => stripSet.contains c)).reverse.dropWhile
      (fun c => stripSet.contains c)).reverse) = v.data
  rw [placeholder_data,
    List.dropWhile_cons_of_pos (by decide),
    List.dropWhile_cons_of_pos (by decide)]
  cases hd : v.data with
  | nil => rfl
  | cons c cs =>
    have hc : stripSet.contains c = false := hv c (by rw [hd]; exact List.mem_cons_self c cs)
    rw [List.cons_append, List.dropWhile_cons_of_neg (by simp only [hc]; decide),
      ← List.cons_append, List.reverse_append]
    have hrev : ∀ x ∈ (c :: cs).reverse, stripSet.contains x = false := by
      intro x hx
      exact hv x (by rw [hd]; exact List.mem_reverse.mp hx)
    show (List.dropWhile (fun c => stripSet.contains c)
        ('\x7d' :: (c :: cs).reverse)).reverse = c :: cs
    rw [List.dropWhile_cons_of_pos (by decide), dropWhile_all_false _ hrev,
      List.reverse_reverse]

/-- If the stored `api_key` is exactly a placeholder for a marker-free
variable name, the loader's interpolation resolves it to that variable's
value (empty string when unset), touching nothing else in the profile. -/
theorem interpolateProfile_placeholder (env : String → Option String) (p : Profile)
    (v : String) (hv : placeholderFree v) (hk : p.api_key = some (placeholder v)) :
    interpolateProfile env p = { p with api_key := some ((env v).getD "") } := by
  rw [interpolateProfile, hk]
  simp [pyStartsWith_placeholder, pyStrip_placeholder v hv]

/-- An `api_key` string that does not start with dollar-open-brace is left
untouched by the loader's interpolation. -/
theorem interpolateProfile_no_marker (env : String → Option String) (p : Profile)
    (h : ∀ k, p.api_key = some k → pyStartsWith k "$\x7b" = false) :
    interpolateProfile env p = p := by
  rw [interpolateProfile]
  cases hk : p.api_key with
  | none => rfl
  | some k => simp [h k hk]

/-- The document invariant: `default_profile`, when set, names an existing
profile. -/
def defaultInvariant (c : ConfigData) : Prop :=
  match c.default_profile with
  | none => True
  | some d => (c.profiles.lookup d).isSome = true

/-! ### Concrete fixtures used by witnesses and counterexamples -/

/-- An empty environment. -/
def env0 : String → Option String := fun _ => none

/-- An environment where only `FOO` is set. -/
def envF : String → Option String := fun v => if v = "FOO" then some "secret" else none

def profA : Profile := ⟨some "openai", some "gpt-4", some "sk-1", []⟩

def profB : Profile := ⟨some "anthropic", some "claude", some "sk-2", []⟩

/-! ### General facts about the manager used across claims -/

theorem get_config_of_loaded (env : String → Option String) (m : ConfigManager)
    (c : ConfigData) (hm : m.config = some c) : m.get_config env = (c, m) := by
  unfold ConfigManager.get_config
  rw [hm]

theorem save_of_yaml (m : ConfigManager) (fs : FileState) (hl : m.loader = .yaml fs) :
    m.save = (⟨.yaml (YamlConfigLoader.save_config m.config), m.config⟩, none) := by
  unfold ConfigManager.save
  rw [hl]

/-- C1: starting unloaded with no backing file, `add_profile` succeeds and a
subsequent `get_config` shows exactly the one supplied profile, with empty
`params`, as the default profile. -/
theorem claimC1 (env : String → Option String)
    (name provider model api_key : String) :
    (ConfigManager.add_profile env name provider model api_key none
        ⟨.yaml .absent, none⟩).2 = none ∧
    ((ConfigManager.add_profile env name provider model api_key none
        ⟨.yaml .absent, none⟩).1.get_config env).1 =
      ⟨some name, [(name, ⟨some provider, some model, some api_key, []⟩)]⟩ := by
  exact ⟨rfl, rfl⟩

/-- C2: `add_profile` on a name already present in the loaded document fails
with AlreadyExists and returns the manager (cached document and backing
store) entirely unchanged. -/
theorem claimC2 (env : String → Option String) (m : ConfigManager) (c : ConfigData)
    (name provider model api_key : String) (params : Option (List (String × String)))
    (hm : m.config = some c) (hdup : (c.profiles.lookup name).isSome = true) :
    ConfigManager.add_profile env name provider model api_key params m =
      (m, some (.alreadyExists name)) := by
  unfold ConfigManager.add_profile
  rw [get_config_of_loaded env m c hm]
  dsimp only
  rw [hdup, if_pos rfl]

/-- C6: every mutating operation of `ReadOnlyConfigManager` fails with
UnsupportedOperation for all arguments in every state, leaving the manager
untouched; and `ConfigManager.save` fails with UnsupportedOperation
whenever the active source has no save capability. -/
theorem claimC6 :
    (∀ m : ConfigManager, ReadOnlyConfigManager.save m =
      (m, some .unsupportedOperation)) ∧
    (∀ (m : ConfigManager) (name provider model api_key : String)
        (params : Option (List (String × String))),
      ReadOnlyConfigManager.add_profile name provider model api_key params m =
        (m, some .unsupportedOperation)) ∧
    (∀ (m : ConfigManager) (name : String) (u : ProfileUpdate),
      ReadOnlyConfigManager.edit_profile name u m = (m, some .unsupportedOperation)) ∧
    (∀ (m : ConfigManager) (name : String),
      ReadOnlyConfigManager.delete_profile name m = (m, some .unsupportedOperation)) ∧
    (∀ (m : ConfigManager) (name : String),
      ReadOnlyConfigManager.set_default name m = (m, some .unsupportedOperation)) ∧
    (∀ m : ConfigManager, m.loader.hasSave = false →
      m.save = (m, some .unsupportedOperation)) := by
  refine ⟨fun m => rfl, fun m _ _ _ _ _ => rfl, fun m _ _ => rfl, fun m _ => rfl,
    fun m _ => rfl, fun m hns => ?_⟩
  unfold ConfigManager.save
  cases hl : m.loader with
  | yaml fs => rw [hl] at hns; exact absurd hns (by simp [Source.hasSave])
  | env => rfl

/-- C6 witness: a concrete env-backed manager's `save` fails with
UnsupportedOperation. -/
theorem claimC6_witness :
    ConfigManager.save ⟨.env, none⟩ = (⟨.env, none⟩, some .unsupportedOperation) :=
  claimC6.2.2.2.2.2 ⟨.env, none⟩ rfl

/-- C8: for every environment, the env-backed loader returns a document whose
default profile is "env-profile" and whose only profile carries the three
fixed environment variables and empty params; it always satisfies the
document invariant, missing variables giving `none` fields. -/
theorem claimC8 (env : String → Option String) :
    (EnvConfigLoader.load_config env).default_profile = some "env-profile" ∧
    (EnvConfigLoader.load_config env).profiles =
      [("env-profile",
        ⟨env "AIDOCTOOL_PROVIDER", env "AIDOCTOOL_MODEL", env "AIDOCTOOL_API_KEY", []⟩)] ∧
    defaultInvariant (EnvConfigLoader.load_config env) := by
  exact ⟨rfl, rfl, rfl⟩

/-- C10: a backing file that exists but parses to an empty/null document
loads as the fresh default document, and any absent top-level key is filled
with its default, in both the YAML loader and the `config.py` helper. -/
theorem claimC10 (env : String → Option String) :
    YamlConfigLoader.load_config env (.present none) = ⟨none, []⟩ ∧
    config.load_config (.present none) = ⟨none, []⟩ ∧
    (∀ d : RawDoc, d.default_profile = none →
      (YamlConfigLoader.load_config env (.present (some d))).default_profile = none ∧
      (config.load_config (.present (some d))).default_profile = none) ∧
    (∀ d : RawDoc, d.profiles = none →
      (YamlConfigLoader.load_config env (.present (some d))).profiles = [] ∧
      (config.load_config (.present (some d))).profiles = []) := by
  refine ⟨rfl, rfl, fun d hd => ?_, fun d hp => ?_⟩
  · constructor
    · show (d.default_profile.getD none) = none
      rw [hd]; rfl
    · show (d.default_profile.getD none) = none
      rw [hd]; rfl
  · constructor
    · show ((d.profiles.getD []).map _) = []
      rw [hp]; rfl
    · show (d.profiles.getD []) = []
      rw [hp]; rfl

/-- C10 witness: a concrete file parsing to null loads as the fresh default
document, and a concrete parsed document missing both top-level keys gets
both defaults. -/
theorem claimC10_witness :
    YamlConfigLoader.load_config env0 (.present none) = ⟨none, []⟩ ∧
    (YamlConfigLoader.load_config env0 (.present (some ⟨none, none⟩))).default_profile
      = none ∧
    (YamlConfigLoader.load_config env0 (.present (some ⟨none, none⟩))).profiles = [] :=
  ⟨(claimC10 env0).1, ((claimC10 env0).2.2.1 ⟨none, none⟩ rfl).1,
    ((claimC10 env0).2.2.2 ⟨none, none⟩ rfl).1⟩

/-- C2 witness: adding "p1" to a concrete loaded document that already has a
"p1" profile fails with AlreadyExists and leaves the manager unchanged. -/
theorem claimC2_witness :
    ConfigManager.add_profile env0 "p1" "openai" "gpt-4" "sk-1" none
        ⟨.yaml .absent, some ⟨some "p1", [("p1", profA)]⟩⟩ =
      (⟨.yaml .absent, some ⟨some "p1", [("p1", profA)]⟩⟩,
        some (.alreadyExists "p1")) :=
  claimC2 env0 _ ⟨some "p1", [("p1", profA)]⟩ "p1" "openai" "gpt-4" "sk-1" none rfl rfl

/-- C3: deleting a present profile removes exactly that entry; if it was the
default profile, the default is reassigned to a remaining profile name (the
first one) or unset when none remain; otherwise the default is unchanged. -/
theorem claimC3 (env : String → Option String) (m : ConfigManager) (fs : FileState)
    (c : ConfigData) (name : String)
    (hl : m.loader = .yaml fs) (hm : m.config = some c)
    (hmem : (c.profiles.lookup name).isSome = true) :
    (m.delete_profile env name).2 = none ∧
    ∃ c', (m.delete_profile env name).1.config = some c' ∧
      c'.profiles = c.profiles.filter (fun kv => kv.1 != name) ∧
      c'.profiles.lookup name = none ∧
      (∀ b, b ≠ name → c'.profiles.lookup b = c.profiles.lookup b) ∧
      c'.default_profile = (if c.default_profile = some name
        then c'.profiles.head?.map Prod.fst else c.default_profile) ∧
      (c.default_profile = some name →
        (c'.profiles = [] ∧ c'.default_profile = none) ∨
        (∃ k, c'.default_profile = some k ∧ (c'.profiles.lookup k).isSome = true)) ∧
      (c.default_profile ≠ some name → c'.default_profile = c.default_profile) := by
  have hdel : m.delete_profile env name =
      (⟨.yaml (YamlConfigLoader.save_config (some
          ⟨(if c.default_profile = some name
            then (c.profiles.filter (fun kv => kv.1 != name)).head?.map Prod.fst
            else c.default_profile),
          c.profiles.filter (fun kv => kv.1 != name)⟩)),
        some ⟨(if c.default_profile = some name
            then (c.profiles.filter (fun kv => kv.1 != name)).head?.map Prod.fst
            else c.default_profile),
          c.profiles.filter (fun kv => kv.1 != name)⟩⟩, none) := by
    unfold ConfigManager.delete_profile
    rw [get_config_of_loaded env m c hm]
    dsimp only
    rw [hmem, if_pos rfl]
    exact save_of_yaml ⟨m.loader, some
      ⟨(if c.default_profile = some name
        then (c.profiles.filter (fun kv => kv.1 != name)).head?.map Prod.fst
        else c.default_profile),
      c.profiles.filter (fun kv => kv.1 != name)⟩⟩ fs hl
  rw [hdel]
  refine ⟨rfl, ⟨_, rfl, rfl, lookup_filter_self name c.profiles,
    fun b hb => lookup_filter_ne name b c.profiles hb, rfl, ?_, ?_⟩⟩
  · intro hdp
    rw [if_pos hdp]
    cases hflt : c.profiles.filter (fun kv => kv.1 != name) with
    | nil => exact Or.inl ⟨rfl, rfl⟩
    | cons kv tl =>
      obtain ⟨k, v⟩ := kv
      refine Or.inr ⟨k, rfl, ?_⟩
      simp [List.lookup_cons]
  · intro hdp
    rw [if_neg hdp]

/-- C3 witness: with profiles "p1", "p2" (in that order) and default "p1",
deleting "p1" succeeds and the default profile becomes "p2". -/
theorem claimC3_witness :
    (ConfigManager.delete_profile env0 "p1"
      ⟨.yaml .absent, some ⟨some "p1", [("p1", profA), ("p2", profB)]⟩⟩).2 = none ∧
    ∃ c', (ConfigManager.delete_profile env0 "p1"
      ⟨.yaml .absent, some ⟨some "p1", [("p1", profA), ("p2", profB)]⟩⟩).1.config
        = some c' ∧ c'.default_profile = some "p2" := by
  obtain ⟨h1, c', hc', hprof, _, _, hdef, _, _⟩ :=
    claimC3 env0 ⟨.yaml .absent, some ⟨some "p1", [("p1", profA), ("p2", profB)]⟩⟩
      .absent ⟨some "p1", [("p1", profA), ("p2", profB)]⟩ "p1" rfl rfl (by decide)
  refine ⟨h1, c', hc', ?_⟩
  rw [hdef, if_pos rfl, hprof]
  rfl

/-- C9: editing a present profile succeeds, overwrites exactly the fields
given, retains every field not mentioned, and leaves all other profiles and
the default profile unchanged. -/
theorem claimC9 (env : String → Option String) (m : ConfigManager) (fs : FileState)
    (c : ConfigData) (name : String) (u : ProfileUpdate) (p : Profile)
    (hl : m.loader = .yaml fs) (hm : m.config = some c)
    (hp : c.profiles.lookup name = some p) :
    (m.edit_profile env name u).2 = none ∧
    ∃ c', (m.edit_profile env name u).1.config = some c' ∧
      c'.default_profile = c.default_profile ∧
      c'.profiles.lookup name = some (p.applyUpdate u) ∧
      (∀ b, b ≠ name → c'.profiles.lookup b = c.profiles.lookup b) ∧
      ((p.applyUpdate u).provider =
        match u.provider with | some v => some v | none => p.provider) ∧
      ((p.applyUpdate u).model =
        match u.model with | some v => some v | none => p.model) ∧
      ((p.applyUpdate u).api_key =
        match u.api_key with | some v => some v | none => p.api_key) ∧
      ((p.applyUpdate u).params =
        match u.params with | some v => v | none => p.params) := by
  have hedit : m.edit_profile env name u =
      (⟨.yaml (YamlConfigLoader.save_config (some
          ⟨c.default_profile, c.profiles.map
            (fun kv => if kv.1 == name then (name, p.applyUpdate u) else kv)⟩)),
        some ⟨c.default_profile, c.profiles.map
          (fun kv => if kv.1 == name then (name, p.applyUpdate u) else kv)⟩⟩,
        none) := by
    unfold ConfigManager.edit_profile
    rw [get_config_of_loaded env m c hm]
    dsimp only
    rw [hp]
    dsimp only
    exact save_of_yaml ⟨m.loader, some
      ⟨c.default_profile, c.profiles.map
        (fun kv => if kv.1 == name then (name, p.applyUpdate u) else kv)⟩⟩ fs hl
  rw [hedit]
  refine ⟨rfl, _, rfl, rfl,
    lookup_update_self name (p.applyUpdate u) c.profiles (by rw [hp]; rfl),
    fun b hb => lookup_update_ne name b (p.applyUpdate u) c.profiles hb,
    rfl, rfl, rfl, rfl⟩

/-- C9 witness: editing "p1"'s model only, in a concrete two-profile
document, keeps provider/api_key/params and the other profile and the
default untouched. -/
theorem claimC9_witness :
    (ConfigManager.edit_profile env0 "p1" ⟨none, some "gpt-4o", none, none⟩
      ⟨.yaml .absent, some ⟨some "p2", [("p1", profA), ("p2", profB)]⟩⟩).2 = none ∧
    ∃ c', (ConfigManager.edit_profile env0 "p1" ⟨none, some "gpt-4o", none, none⟩
      ⟨.yaml .absent, some ⟨some "p2", [("p1", profA), ("p2", profB)]⟩⟩).1.config
        = some c' ∧
      c'.default_profile = some "p2" ∧
      c'.profiles.lookup "p1" =
        some ⟨some "openai", some "gpt-4o", some "sk-1", []⟩ ∧
      c'.profiles.lookup "p2" = some profB := by
  obtain ⟨h1, c', hc', hdef, hsel, hoth, _, _, _, _⟩ :=
    claimC9 env0 ⟨.yaml .absent, some ⟨some "p2", [("p1", profA), ("p2", profB)]⟩⟩
      .absent ⟨some "p2", [("p1", profA), ("p2", profB)]⟩ "p1"
      ⟨none, some "gpt-4o", none, none⟩ profA rfl rfl (by decide)
  refine ⟨h1, c', hc', hdef, ?_, ?_⟩
  · rw [hsel]; rfl
  · rw [hoth "p2" (by decide)]; rfl

theorem defaultInvariant_lookup (c : ConfigData) (d : String)
    (hd : c.default_profile = some d) (h : defaultInvariant c) :
    (c.profiles.lookup d).isSome = true := by
  unfold defaultInvariant at h
  rw [hd] at h
  exact h

theorem save_ok_config (m2 m' : ConfigManager) (e : Option Err) (d : ConfigData)
    (hcfg : m2.config = some d) (heq : m2.save = (m', e)) (he : e = none) :
    m'.config = some d := by
  subst he
  unfold ConfigManager.save at heq
  cases hl : m2.loader with
  | yaml fs =>
    rw [hl] at heq
    injection heq with h1 h2
    rw [← h1]
    exact hcfg
  | env =>
    rw [hl] at heq
    injection heq with h1 h2
    exact absurd h2 (by simp)

/-- C4: the invariant "`default_profile`, if set, names an existing profile"
is preserved by every successful `add_profile`, `edit_profile`,
`delete_profile` and `set_default` on a loaded document satisfying it. -/
theorem claimC4 (env : String → Option String) (m : ConfigManager) (c : ConfigData)
    (hm : m.config = some c) (hinv : defaultInvariant c) :
    (∀ (name provider model api_key : String)
        (params : Option (List (String × String))) (m' : ConfigManager)
        (e : Option Err),
      ConfigManager.add_profile env name provider model api_key params m = (m', e) →
      e = none → ∀ c', m'.config = some c' → defaultInvariant c') ∧
    (∀ (name : String) (u : ProfileUpdate) (m' : ConfigManager) (e : Option Err),
      m.edit_profile env name u = (m', e) → e = none →
      ∀ c', m'.config = some c' → defaultInvariant c') ∧
    (∀ (name : String) (m' : ConfigManager) (e : Option Err),
      m.delete_profile env name = (m', e) → e = none →
      ∀ c', m'.config = some c' → defaultInvariant c') ∧
    (∀ (name : String) (m' : ConfigManager) (e : Option Err),
      m.set_default env name = (m', e) → e = none →
      ∀ c', m'.config = some c' → defaultInvariant c') := by
  refine ⟨?_, ?_, ?_, ?_⟩
  · -- add_profile
    intro name provider model api_key params m' e heq he c' hc'
    unfold ConfigManager.add_profile at heq
    rw [get_config_of_loaded env m c hm] at heq
    dsimp only at heq
    cases hcase : (c.profiles.lookup name).isSome with
    | true =>
      rw [hcase, if_pos rfl] at heq
      subst he
      exact absurd (congrArg Prod.snd heq) (by simp)
    | false =>
      rw [hcase, if_neg Bool.false_ne_true] at heq
      have hms := save_ok_config _ m' e _ rfl heq he
      rw [hms] at hc'
      obtain rfl := Option.some.inj hc'
      cases hpt : ConfigManager.pyTruthy c.default_profile with
      | false =>
        rw [if_neg Bool.false_ne_true]
        show (List.lookup name (c.profiles ++ _)).isSome = true
        rw [lookup_append]
        have hnone : c.profiles.lookup name = none := by
          cases h2 : c.profiles.lookup name with
          | none => rfl
          | some v => rw [h2] at hcase; simp at hcase
        rw [hnone, Option.none_or]
        simp [List.lookup_cons]
      | true =>
        rw [if_pos rfl]
        cases hdp : c.default_profile with
        | none => rw [hdp] at hpt; simp [ConfigManager.pyTruthy] at hpt
        | some d =>
          show defaultInvariant ⟨some d, _⟩
          show (List.lookup d (c.profiles ++ _)).isSome = true
          rw [lookup_append]
          obtain ⟨v, hv⟩ := Option.isSome_iff_exists.mp
            (defaultInvariant_lookup c d hdp hinv)
          rw [hv]
          rfl
  · -- edit_profile
    intro name u m' e heq he c' hc'
    unfold ConfigManager.edit_profile at heq
    rw [get_config_of_loaded env m c hm] at heq
    dsimp only at heq
    cases hcase : c.profiles.lookup name with
    | none =>
      rw [hcase] at heq
      subst he
      exact absurd (congrArg Prod.snd heq) (by simp)
    | some p =>
      rw [hcase] at heq
      have hms := save_ok_config _ m' e _ rfl heq he
      rw [hms] at hc'
      obtain rfl := Option.some.inj hc'
      cases hdp : c.default_profile with
      | none => exact trivial
      | some d =>
        show (List.lookup d (c.profiles.map _)).isSome = true
        cases hdn : decide (d = name) with
        | true =>
          have hdn' : d = name := of_decide_eq_true hdn
          subst hdn'
          rw [lookup_update_self d (p.applyUpdate u) c.profiles (by rw [hcase]; rfl)]
          rfl
        | false =>
          have hdn' : d ≠ name := of_decide_eq_false hdn
          rw [lookup_update_ne name d (p.applyUpdate u) c.profiles hdn']
          exact defaultInvariant_lookup c d hdp hinv
  · -- delete_profile
    intro name m' e heq he c' hc'
    unfold ConfigManager.delete_profile at heq
    rw [get_config_of_loaded env m c hm] at heq
    dsimp only at heq
    cases hcase : (c.profiles.lookup name).isSome with
    | false =>
      rw [hcase, if_neg Bool.false_ne_true] at heq
      subst he
      exact absurd (congrArg Prod.snd heq) (by simp)
    | true =>
      rw [hcase, if_pos rfl] at heq
      have hms := save_ok_config _ m' e _ rfl heq he
      rw [hms] at hc'
      obtain rfl := Option.some.inj hc'
      by_cases hdp : c.default_profile = some name
      · rw [if_pos hdp]
        cases hflt : c.profiles.filter (fun kv => kv.1 != name) with
        | nil => exact trivial
        | cons kv tl =>
          obtain ⟨k, v⟩ := kv
          show (List.lookup k ((k, v) :: tl)).isSome = true
          simp [List.lookup_cons]
      · rw [if_neg hdp]
        cases hdpv : c.default_profile with
        | none => exact trivial
        | some d =>
          have hdn : d ≠ name := by
            intro h
            rw [h] at hdpv
            exact hdp hdpv
          show ((c.profiles.filter (fun kv => kv.1 != name)).lookup d).isSome = true
          rw [lookup_filter_ne name d c.profiles hdn]
          exact defaultInvariant_lookup c d hdpv hinv
  · -- set_default
    intro name m' e heq he c' hc'
    unfold ConfigManager.set_default at heq
    rw [get_config_of_loaded env m c hm] at heq
    dsimp only at heq
    cases hcase : (c.profiles.lookup name).isSome with
    | false =>
      rw [hcase, if_neg Bool.false_ne_true] at heq
      subst he
      exact absurd (congrArg Prod.snd heq) (by simp)
    | true =>
      rw [hcase, if_pos rfl] at heq
      have hms := save_ok_config _ m' e _ rfl heq he
      rw [hms] at hc'
      obtain rfl := Option.some.inj hc'
      exact hcase

/-- C4 witness: the invariant holds of the concrete document produced by a
successful `add_profile` of "p2" to a loaded one-profile document that
satisfies it. -/
theorem claimC4_witness :
    defaultInvariant ⟨some "p1", [("p1", profA), ("p2", profB)]⟩ :=
  (claimC4 env0 ⟨.yaml .absent, some ⟨some "p1", [("p1", profA)]⟩⟩
      ⟨some "p1", [("p1", profA)]⟩ rfl (by rfl)).1
    "p2" "anthropic" "claude" "sk-2" none
    ⟨.yaml (.present (some ⟨some (some "p1"), some [("p1", profA), ("p2", profB)]⟩)),
      some ⟨some "p1", [("p1", profA), ("p2", profB)]⟩⟩
    none rfl rfl ⟨some "p1", [("p1", profA), ("p2", profB)]⟩ rfl

/-- C5 counterexample: the stored `api_key` "$\x7bFOO" (no closing brace) is
not of the exact placeholder shape, yet the loader does not leave it
unchanged: with FOO set to "secret" it is replaced by "secret". -/
theorem claimC5_counterexample :
    isExactPlaceholder "$\x7bFOO" = false ∧
    YamlConfigLoader.load_config envF
        (.present (some ⟨some (some "p"),
          some [("p", ⟨some "o", some "m", some "$\x7bFOO", []⟩)]⟩)) =
      ⟨some "p", [("p", ⟨some "o", some "m", some "secret", []⟩)]⟩ ∧
    ("secret" : String) ≠ "$\x7bFOO" := by
  refine ⟨rfl, rfl, by decide⟩

/-- C5 (amended): on file-backed load every profile's `api_key` is
interpolated exactly when it starts with dollar-open-brace, in which case it
becomes the environment value (empty string if unset) of the name obtained
by stripping all leading and trailing dollar/brace characters; an `api_key`
of exactly the placeholder shape therefore resolves to the named variable,
while strings not starting with dollar-open-brace and non-string values are
left unchanged. -/
theorem claimC5_amended (env : String → Option String) (d : RawDoc)
    (ps : List (String × Profile)) (hps : d.profiles = some ps) :
    (YamlConfigLoader.load_config env (.present (some d))).profiles =
      ps.map (fun kv => (kv.1, interpolateProfile env kv.2)) ∧
    (∀ (p : Profile) (v : String), placeholderFree v →
      p.api_key = some (placeholder v) →
      interpolateProfile env p = { p with api_key := some ((env v).getD "") }) ∧
    (∀ (p : Profile) (k : String), p.api_key = some k →
      pyStartsWith k "$\x7b" = false → interpolateProfile env p = p) ∧
    (∀ p : Profile, p.api_key = none → interpolateProfile env p = p) := by
  refine ⟨?_, fun p v hv hk => interpolateProfile_placeholder env p v hv hk,
    ?_, ?_⟩
  · show ((d.profiles.getD []).map _) = _
    rw [hps]
    rfl
  · intro p k hk hns
    refine interpolateProfile_no_marker env p (fun k' hk' => ?_)
    rw [hk] at hk'
    obtain rfl := Option.some.inj hk'
    exact hns
  · intro p hk
    refine interpolateProfile_no_marker env p (fun k' hk' => ?_)
    rw [hk] at hk'
    cases hk'

/-- C5 amended witness: the concrete exact placeholder for FOO resolves to
the value of FOO. -/
theorem claimC5_amended_witness :
    interpolateProfile envF ⟨some "o", some "m", some (placeholder "FOO"), []⟩ =
      ⟨some "o", some "m", some ((envF "FOO").getD ""), []⟩ :=
  (claimC5_amended envF ⟨none, some []⟩ [] rfl).2.1
    ⟨some "o", some "m", some (placeholder "FOO"), []⟩ "FOO"
    (by unfold placeholderFree; decide) rfl

/-- A document whose only `api_key` is "$\x7bFOO": not an exact placeholder,
so per the spec's round-trip clause it should reload unchanged. -/
def doc7 : ConfigData := ⟨some "p", [("p", ⟨some "o", some "m", some "$\x7bFOO", []⟩)]⟩

/-- C7 counterexample: saving `doc7` and reloading it under an environment
where FOO = "secret" does not yield what the spec's round-trip clause
prescribes: the spec expects `doc7` back unchanged (its `api_key` is not a
placeholder), but the loader returns "secret" for that `api_key`. -/
theorem claimC7_counterexample :
    YamlConfigLoader.load_config envF (YamlConfigLoader.save_config (some doc7)) =
      ⟨some "p", [("p", ⟨some "o", some "m", some "secret", []⟩)]⟩ ∧
    specReload envF doc7 = doc7 ∧
    (⟨some "p", [("p", ⟨some "o", some "m", some "secret", []⟩)]⟩ : ConfigData) ≠
      doc7 := by
  refine ⟨rfl, rfl, by decide⟩

/-- C7 (amended): saving a document and reloading it from the same backing
file yields the document with every profile's `api_key` passed through the
loader's interpolation; in particular the round trip is the identity when no
`api_key` starts with dollar-open-brace, and an `api_key` that is exactly a
placeholder comes back as the current value of the named variable (empty
string if unset). -/
theorem claimC7_amended (env : String → Option String) (doc : ConfigData) :
    YamlConfigLoader.load_config env (YamlConfigLoader.save_config (some doc)) =
      ⟨doc.default_profile,
        doc.profiles.map (fun kv => (kv.1, interpolateProfile env kv.2))⟩ ∧
    ((∀ kv ∈ doc.profiles, ∀ k, (kv : String × Profile).2.api_key = some k →
        pyStartsWith k "$\x7b" = false) →
      YamlConfigLoader.load_config env (YamlConfigLoader.save_config (some doc)) =
        doc) ∧
    (∀ kv ∈ doc.profiles, ∀ v : String, placeholderFree v →
      (kv : String × Profile).2.api_key = some (placeholder v) →
      ((kv : String × Profile).1, { kv.2 with api_key := some ((env v).getD "") }) ∈
        (YamlConfigLoader.load_config env
          (YamlConfigLoader.save_config (some doc))).profiles) := by
  refine ⟨rfl, ?_, ?_⟩
  · intro h
    have h1 : doc.profiles.map (fun kv => (kv.1, interpolateProfile env kv.2)) =
        doc.profiles := by
      have h2 : doc.profiles.map (fun kv => (kv.1, interpolateProfile env kv.2)) =
          doc.profiles.map id :=
        List.map_congr_left (fun a ha => by
          rw [interpolateProfile_no_marker env a.2 (fun k hk => h a ha k hk)]
          exact Prod.mk.eta)
      rw [h2, List.map_id]
    show (⟨doc.default_profile,
      doc.profiles.map (fun kv => (kv.1, interpolateProfile env kv.2))⟩ :
        ConfigData) = doc
    rw [h1]
  · intro kv hkv v hv hk
    have hmem := List.mem_map_of_mem
      (fun kv => ((kv : String × Profile).1, interpolateProfile env kv.2)) hkv
    dsimp only at hmem
    rw [interpolateProfile_placeholder env kv.2 v hv hk] at hmem
    exact hmem

/-- C7 amended witness: a concrete document with no placeholder-like
`api_key` round-trips through save and load unchanged. -/
theorem claimC7_amended_witness :
    YamlConfigLoader.load_config env0 (YamlConfigLoader.save_config
      (some ⟨some "p1", [("p1", profA)]⟩)) = ⟨some "p1", [("p1", profA)]⟩ :=
  (claimC7_amended env0 ⟨some "p1", [("p1", profA)]⟩).2.1 (by
    intro kv hkv k hk
    simp at hkv
    subst hkv
    obtain rfl := Option.some.inj hk
    decide)
